import Mathlib

/-!
# Feed ranking and composition engine — verification development

Shallow embedding of `Development/backend/routes/feed.js` (Express routes
`GET /api/feed`, `GET /api/feed/trending`, `GET /api/feed/discover`) over an
abstract in-memory store.  MongoDB aggregation stages and JavaScript array
operations are translated operation by operation:

* `find(...).sort(...).limit(n)` / `$match`+`$sort`+`$limit` become
  `List.filter`, `List.insertionSort` (a deterministic comparison sort; the
  engine's sorts are modelled as total-preorder sorts) and a take;
* MongoDB cursor `limit(n)` treats `0` as "no limit" and a negative count as
  its absolute value — modelled by `mongoLimit`;
* aggregation `$skip`/`$limit` reject a negative skip or a non-positive
  limit, so the trending/discover pipelines are partial (`Option`);
* JavaScript `parseInt(q) || d` turns an absent, non-numeric or zero value
  into the default `d` — modelled by `parseIntOr` over `Option Int`;
* `Array.prototype.slice` with clamping (including negative indices) is
  `jsSlice`;
* numbers are exact rationals (`ℚ`); engagement counts and identities are
  naturals, timestamps are integer milliseconds.
-/

set_option maxRecDepth 100000

/-- A stored post (`models/Post.js`): identity, author identity, liker
identities, comment author identities, creation timestamp in milliseconds,
and the visibility flag. -/
structure Post where
  id : Nat
  author : Nat
  likes : List Nat
  comments : List Nat
  createdAt : Int
  isPublic : Bool
deriving DecidableEq

/-- A stored user (`models/User.js`): identity, followed identities,
follower identities. -/
structure UserDoc where
  id : Nat
  following : List Nat
  followers : List Nat
deriving DecidableEq

/-- The underlying document store: the `posts` and `users` collections. -/
structure Store where
  posts : List Post
  users : List UserDoc
deriving DecidableEq

/-- `User.findById`: first user document with the given identity. -/
def findUser (s : Store) (uid : Nat) : Option UserDoc :=
  s.users.find? (fun u => u.id == uid)

/-- JavaScript `parseInt(q) || d`: an absent or non-numeric query value, and
also the value `0` (falsy in JavaScript), fall back to the default `d`. -/
def parseIntOr (d : Int) : Option Int → Int
  | none => d
  | some n => if n = 0 then d else n

/-- MongoDB cursor `limit(n)`: `0` means no limit, and a negative count is
applied as its absolute value. -/
def mongoLimit (n : Int) (l : List α) : List α :=
  if n = 0 then l else l.take n.natAbs

/-- JavaScript `Array.prototype.slice(start, stop)`: negative indices count
from the end, and both indices are clamped to the array bounds. -/
def jsSlice (l : List α) (start stop : Int) : List α :=
  let len : Int := l.length
  let s := if start < 0 then max (len + start) 0 else min start len
  let e := if stop < 0 then max (len + stop) 0 else min stop len
  (l.take e.toNat).drop s.toNat

/-- JavaScript `Math.ceil(t / l)` for an integer numerator and denominator,
exact for a positive denominator (the only case the routes reach with their
default-corrected page size). -/
def ceilDiv (t l : Int) : Int :=
  -((-t).fdiv l)

/-- `populate('following')` followed by `map(f => f._id)`: references that do
not resolve to an existing user document are dropped by `populate`. -/
def followingIdsOf (s : Store) (u : UserDoc) : List Nat :=
  u.following.filter (fun f => (findUser s f).isSome)

/-- The `likedByFollowing` aggregation field: likers are resolved against the
`users` collection (`$lookup`), intersected with the followed identities
(`$setIntersection`, a set operation, hence the dedup), and counted
(`$size`). -/
def likedByFollowing (s : Store) (p : Post) (fids : List Nat) : Nat :=
  (((p.likes.filter (fun u => (findUser s u).isSome)).filter
      (fun u => decide (u ∈ fids))).dedup).length

/-- `engagementScore` as computed by the popularity stages:
`$size likes + $size comments * 2`. -/
def engagementScore (p : Post) : Nat :=
  p.likes.length + p.comments.length * 2

/-- The recency term of the personalized feed's unified comparator:
`new Date(createdAt).getTime() / 1000000`. -/
def recencyFactor (p : Post) : ℚ :=
  (p.createdAt : ℚ) / 1000000

/-- The personalized feed's final-ordering score:
`(likes.length + comments.length * 2) * 0.3 + (createdAt / 1000000) * 0.7`. -/
def unifiedScore (p : Post) : ℚ :=
  ((p.likes.length : ℚ) + (p.comments.length : ℚ) * 2) * (3 / 10) +
    recencyFactor p * (7 / 10)

/-- `sort({ createdAt: -1 })`: newest first. -/
def createdDesc (a b : Post) : Prop :=
  b.createdAt ≤ a.createdAt

/-- `$sort { likedByFollowing: -1, createdAt: -1 }`. -/
def coengOrd (s : Store) (fids : List Nat) (a b : Post) : Prop :=
  likedByFollowing s b fids < likedByFollowing s a fids ∨
    (likedByFollowing s a fids = likedByFollowing s b fids ∧ b.createdAt ≤ a.createdAt)

/-- `$sort { engagementScore: -1, createdAt: -1 }`. -/
def engOrd (a b : Post) : Prop :=
  engagementScore b < engagementScore a ∨
    (engagementScore a = engagementScore b ∧ b.createdAt ≤ a.createdAt)

/-- The combined-list comparator of the personalized feed
(`(b, a) => bScore - aScore`, i.e. unified score descending). -/
def unifiedOrd (a b : Post) : Prop :=
  unifiedScore b ≤ unifiedScore a

instance : DecidableRel createdDesc := fun a b =>
  inferInstanceAs (Decidable (b.createdAt ≤ a.createdAt))

instance (s : Store) (fids : List Nat) : DecidableRel (coengOrd s fids) := fun a b =>
  inferInstanceAs (Decidable (_ ∨ _))

instance : DecidableRel engOrd := fun a b =>
  inferInstanceAs (Decidable (_ ∨ _))

instance : DecidableRel unifiedOrd := fun a b =>
  inferInstanceAs (Decidable (unifiedScore b ≤ unifiedScore a))

instance : IsTotal Post createdDesc :=
  ⟨fun a b => le_total b.createdAt a.createdAt⟩

instance : IsTrans Post createdDesc :=
  ⟨fun _ _ _ h h2 => le_trans h2 h⟩

theorem lexDesc_total {α : Type} (f : α → Nat) (g : α → Int) (a b : α) :
    (f b < f a ∨ (f a = f b ∧ g b ≤ g a)) ∨ (f a < f b ∨ (f b = f a ∧ g a ≤ g b)) := by
  rcases lt_trichotomy (f a) (f b) with h | h | h
  · exact Or.inr (Or.inl h)
  · rcases le_total (g b) (g a) with h2 | h2
    · exact Or.inl (Or.inr ⟨h, h2⟩)
    · exact Or.inr (Or.inr ⟨h.symm, h2⟩)
  · exact Or.inl (Or.inl h)

theorem lexDesc_trans {α : Type} (f : α → Nat) (g : α → Int) (a b c : α)
    (h1 : f b < f a ∨ (f a = f b ∧ g b ≤ g a))
    (h2 : f c < f b ∨ (f b = f c ∧ g c ≤ g b)) :
    f c < f a ∨ (f a = f c ∧ g c ≤ g a) := by
  rcases h1 with h1 | ⟨h1, h1g⟩ <;> rcases h2 with h2 | ⟨h2, h2g⟩
  · exact Or.inl (lt_trans h2 h1)
  · exact Or.inl (h2 ▸ h1)
  · exact Or.inl (h1 ▸ h2)
  · exact Or.inr ⟨h1.trans h2, le_trans h2g h1g⟩

instance (s : Store) (fids : List Nat) : IsTotal Post (coengOrd s fids) :=
  ⟨fun a b => lexDesc_total (fun p => likedByFollowing s p fids) (fun p => p.createdAt) a b⟩

instance (s : Store) (fids : List Nat) : IsTrans Post (coengOrd s fids) :=
  ⟨fun a b c => lexDesc_trans (fun p => likedByFollowing s p fids) (fun p => p.createdAt) a b c⟩

instance : IsTotal Post engOrd :=
  ⟨fun a b => lexDesc_total engagementScore (fun p => p.createdAt) a b⟩

instance : IsTrans Post engOrd :=
  ⟨fun a b c => lexDesc_trans engagementScore (fun p => p.createdAt) a b c⟩

instance : IsTotal Post unifiedOrd :=
  ⟨fun a b => le_total (unifiedScore b) (unifiedScore a)⟩

instance : IsTrans Post unifiedOrd :=
  ⟨fun _ _ _ h h2 => le_trans h2 h⟩

/-- Eligibility filter of the graph stage (`Post.find`): authored by a
followed identity and public. -/
def graphEligible (s : Store) (fids : List Nat) : List Post :=
  s.posts.filter (fun p => decide (p.author ∈ fids ∧ p.isPublic = true))

/-- The graph stage: eligible posts, newest first, cursor-limited to
`followingPostsCount` (`Math.floor(limit * 0.7)`). -/
def followingPostsOf (s : Store) (fids : List Nat) (count : Int) : List Post :=
  mongoLimit count (List.insertionSort createdDesc (graphEligible s fids))

/-- Candidates matched by the co-engagement pipeline: not an already selected
identity, not authored by the viewer or a followed identity, public, and
liked by at least one followed identity. -/
def coengEligible (s : Store) (viewerId : Nat) (fids exclIds : List Nat) : List Post :=
  s.posts.filter (fun p => decide (p.id ∉ exclIds ∧ p.author ≠ viewerId ∧
    p.author ∉ fids ∧ p.isPublic = true ∧ 0 < likedByFollowing s p fids))

/-- The co-engagement stage (`postsLikedByFollowing` aggregate): eligible
posts ordered by followed-liker count descending then creation descending,
`$limit`ed to `n` (the pipeline only runs with a positive `n`). -/
def coengPostsOf (s : Store) (viewerId : Nat) (fids exclIds : List Nat) (n : Nat) : List Post :=
  (List.insertionSort (coengOrd s fids) (coengEligible s viewerId fids exclIds)).take n

/-- Candidates matched by the popularity pipeline: not an already selected
identity, not authored by the viewer or a followed identity, and public. -/
def popularEligible (s : Store) (viewerId : Nat) (fids exclIds : List Nat) : List Post :=
  s.posts.filter (fun p => decide (p.id ∉ exclIds ∧ p.author ≠ viewerId ∧
    p.author ∉ fids ∧ p.isPublic = true))

/-- The popularity filler stage (`popularPosts` aggregate): eligible posts
ordered by engagement descending then creation descending, `$limit`ed to `n`
(the pipeline only runs with a positive `n`). -/
def popularPostsOf (s : Store) (viewerId : Nat) (fids exclIds : List Nat) (n : Nat) : List Post :=
  (List.insertionSort engOrd (popularEligible s viewerId fids exclIds)).take n

/-- The recommended pool of the personalized feed: co-engagement candidates
first, backfilled by popularity candidates when the co-engagement stage fell
short of `recommendedPostsCount = limit - followingPosts.length`. -/
def recommendedPostsOf (s : Store) (viewerId : Nat) (fids graphIds : List Nat)
    (recommendedPostsCount : Int) : List Post :=
  if 0 < recommendedPostsCount then
    let coeng := coengPostsOf s viewerId fids graphIds recommendedPostsCount.toNat
    if (coeng.length : Int) < recommendedPostsCount then
      coeng ++ popularPostsOf s viewerId fids (graphIds ++ coeng.map (fun p => p.id))
        (recommendedPostsCount.toNat - coeng.length)
    else coeng
  else []

/-- The sourcing phase of `GET /api/feed`: the graph-slot list and the
recommended-slot list, `none` when the viewer does not resolve. -/
def allCandidates (s : Store) (viewerId : Nat) (limit : Int) : Option (List Post × List Post) :=
  (findUser s viewerId).map fun user =>
    let fids := followingIdsOf s user
    let fp := followingPostsOf s fids (Int.fdiv (7 * limit) 10)
    (fp, recommendedPostsOf s viewerId fids (fp.map (fun p => p.id)) (limit - fp.length))

/-- The serialized response of a personalized feed request. -/
structure FeedResponse where
  posts : List Post
  currentPage : Int
  totalPages : Int
  totalPosts : Nat
  feedType : String
deriving DecidableEq

/-- The response carries no explicit has-more flag; the spec's `hasMore` is
the derived `currentPage < totalPages`. -/
def FeedResponse.hasMore (r : FeedResponse) : Bool :=
  decide (r.currentPage < r.totalPages)

/-- `GET /api/feed`: source candidates, re-sort the combined list by the
unified score, slice the requested page, and report totals.  The aggregate
stages also decorate recommended documents with their computed fields; those
decorations are deterministic functions of the post and the store and are not
carried on the returned records here. -/
def getPersonalizedFeed (s : Store) (viewerId : Nat)
    (rawPage rawLimit : Option Int) : Option FeedResponse :=
  let page := parseIntOr 1 rawPage
  let limit := parseIntOr 10 rawLimit
  let skip := (page - 1) * limit
  (allCandidates s viewerId limit).map fun c =>
    let sorted := List.insertionSort unifiedOrd (c.1 ++ c.2)
    { posts := jsSlice sorted skip (skip + limit)
      currentPage := page
      totalPages := ceilDiv sorted.length limit
      totalPosts := sorted.length
      feedType := "personalized" }

/-- A document produced by the trending aggregate: the post together with the
fields added by `$addFields`, all of which are serialized in the response. -/
structure TrendingItem where
  post : Post
  engagementScore : Nat
  recencyBoost : ℚ
  finalScore : ℚ
deriving DecidableEq

/-- `$addFields` of the trending pipeline, evaluated at the single
`new Date()` value `now` (milliseconds) captured when the pipeline is built:
`recencyBoost = (now - createdAt) / (1000*60*60*24)` and
`finalScore = engagementScore * 0.8 + recencyBoost * 0.2`. -/
def trendItem (now : Int) (p : Post) : TrendingItem :=
  let eng := engagementScore p
  let rb : ℚ := ((now : ℚ) - (p.createdAt : ℚ)) / (1000 * 60 * 60 * 24)
  { post := p
    engagementScore := eng
    recencyBoost := rb
    finalScore := (eng : ℚ) * (8 / 10) + rb * (2 / 10) }

/-- `$sort { finalScore: -1 }`. -/
def trendOrd (a b : TrendingItem) : Prop :=
  b.finalScore ≤ a.finalScore

instance : DecidableRel trendOrd := fun a b =>
  inferInstanceAs (Decidable (b.finalScore ≤ a.finalScore))

instance : IsTotal TrendingItem trendOrd :=
  ⟨fun a b => le_total b.finalScore a.finalScore⟩

instance : IsTrans TrendingItem trendOrd :=
  ⟨fun _ _ _ h h2 => le_trans h2 h⟩

/-- The serialized response of a trending feed request. -/
structure TrendingResponse where
  posts : List TrendingItem
  currentPage : Int
  totalPages : Int
  totalPosts : Nat
  feedType : String
deriving DecidableEq

/-- `GET /api/feed/trending`: score all public posts with the decayed
formula at the pipeline-build instant `now`, order by final score descending
and page via `$skip`/`$limit`.  Those aggregation stages reject a negative
skip or a non-positive limit, so such requests fail (surfaced as a 500). -/
def getTrendingFeed (s : Store) (now : Int)
    (rawPage rawLimit : Option Int) : Option TrendingResponse :=
  let page := parseIntOr 1 rawPage
  let limit := parseIntOr 10 rawLimit
  let skip := (page - 1) * limit
  if 0 ≤ skip ∧ 1 ≤ limit then
    let scored := (s.posts.filter (fun p => p.isPublic)).map (trendItem now)
    let sorted := List.insertionSort trendOrd scored
    let total := (s.posts.filter (fun p => p.isPublic)).length
    some { posts := (sorted.drop skip.toNat).take limit.toNat
           currentPage := page
           totalPages := ceilDiv total limit
           totalPosts := total
           feedType := "trending" }
  else none

/-- A document produced by the discover aggregate: the post with the first
matched author's follower list and the computed discovery score. -/
structure DiscoverItem where
  post : Post
  authorFollowers : List Nat
  discoveryScore : ℚ
deriving DecidableEq

/-- `$addFields` of the discover pipeline.  `authorFollowers` is
`$arrayElemAt ['$authorData.followers', 0]`; the pipeline only completes when
every matched post's author resolves (otherwise `$size` of a missing value
aborts the aggregate), so the empty-list fallback here is never reached on
the `some` path. -/
def discoverItem (s : Store) (p : Post) : DiscoverItem :=
  let followers := ((findUser s p.author).map (fun u => u.followers)).getD []
  { post := p
    authorFollowers := followers
    discoveryScore := (p.likes.length : ℚ) * (4 / 10) +
      (p.comments.length : ℚ) * (3 / 10) + (followers.length : ℚ) * (3 / 10) }

/-- `$sort { discoveryScore: -1, createdAt: -1 }`. -/
def discoverOrd (a b : DiscoverItem) : Prop :=
  b.discoveryScore < a.discoveryScore ∨
    (a.discoveryScore = b.discoveryScore ∧ b.post.createdAt ≤ a.post.createdAt)

instance : DecidableRel discoverOrd := fun a b =>
  inferInstanceAs (Decidable (_ ∨ _))

instance : IsTotal DiscoverItem discoverOrd := by
  constructor
  intro a b
  rcases lt_trichotomy a.discoveryScore b.discoveryScore with h | h | h
  · exact Or.inr (Or.inl h)
  · rcases le_total b.post.createdAt a.post.createdAt with h2 | h2
    · exact Or.inl (Or.inr ⟨h, h2⟩)
    · exact Or.inr (Or.inr ⟨h.symm, h2⟩)
  · exact Or.inl (Or.inl h)

instance : IsTrans DiscoverItem discoverOrd := by
  constructor
  intro a b c h1 h2
  rcases h1 with h1 | ⟨h1, h1g⟩ <;> rcases h2 with h2 | ⟨h2, h2g⟩
  · exact Or.inl (lt_trans h2 h1)
  · exact Or.inl (h2 ▸ h1)
  · exact Or.inl (h1 ▸ h2)
  · exact Or.inr ⟨h1.trans h2, le_trans h2g h1g⟩

/-- The serialized response of a discover feed request. -/
structure DiscoverResponse where
  posts : List DiscoverItem
  currentPage : Int
  totalPages : Int
  totalPosts : Nat
  feedType : String
deriving DecidableEq

/-- The `$match` filter of the discover pipeline and of its
`countDocuments`: not authored by the viewer or a followed identity (the raw
`following` array, no populate here), and public. -/
def discoverCandidates (s : Store) (viewerId : Nat) (fids : List Nat) : List Post :=
  s.posts.filter (fun p => decide (p.author ≠ viewerId ∧ p.author ∉ fids ∧ p.isPublic = true))

/-- `GET /api/feed/discover`: matched posts scored by author popularity and
engagement, ordered by discovery score descending then creation descending,
paged via `$skip`/`$limit`.  The request fails when the viewer does not
resolve, when `$skip`/`$limit` receive a negative skip or non-positive
limit, or when a matched post's author is missing from the `users`
collection (`$size` on a missing `authorFollowers`). -/
def getDiscoverFeed (s : Store) (viewerId : Nat)
    (rawPage rawLimit : Option Int) : Option DiscoverResponse :=
  let page := parseIntOr 1 rawPage
  let limit := parseIntOr 10 rawLimit
  let skip := (page - 1) * limit
  match findUser s viewerId with
  | none => none
  | some user =>
    let cands := discoverCandidates s viewerId user.following
    if 0 ≤ skip ∧ 1 ≤ limit ∧ ∀ p ∈ cands, (findUser s p.author).isSome = true then
      let sorted := List.insertionSort discoverOrd (cands.map (discoverItem s))
      some { posts := (sorted.drop skip.toNat).take limit.toNat
             currentPage := page
             totalPages := ceilDiv cands.length limit
             totalPosts := cands.length
             feedType := "discover" }
    else none


/-! ## Infrastructure lemmas -/

theorem jsSlice_sublist (l : List α) (a b : Int) : List.Sublist (jsSlice l a b) l := by
  unfold jsSlice
  exact (List.drop_sublist _ _).trans (List.take_sublist _ _)

theorem getPersonalizedFeed_eq (s : Store) (viewerId : Nat) (rawPage rawLimit : Option Int)
    (r : FeedResponse) (h : getPersonalizedFeed s viewerId rawPage rawLimit = some r) :
    ∃ c, allCandidates s viewerId (parseIntOr 10 rawLimit) = some c ∧
      r = { posts := jsSlice (List.insertionSort unifiedOrd (c.1 ++ c.2))
              ((parseIntOr 1 rawPage - 1) * parseIntOr 10 rawLimit)
              ((parseIntOr 1 rawPage - 1) * parseIntOr 10 rawLimit + parseIntOr 10 rawLimit)
            currentPage := parseIntOr 1 rawPage
            totalPages := ceilDiv (List.insertionSort unifiedOrd (c.1 ++ c.2)).length
              (parseIntOr 10 rawLimit)
            totalPosts := (List.insertionSort unifiedOrd (c.1 ++ c.2)).length
            feedType := "personalized" } := by
  simp only [getPersonalizedFeed, Option.map_eq_some'] at h
  obtain ⟨c, hc, hr⟩ := h
  exact ⟨c, hc, hr.symm⟩

/-! ## C1 — final presentation order of the personalized feed -/

/-- C1: after sourcing, the personalized feed re-sorts the combined candidate
list in descending order of the unified score
`0.3 × (likeCount + 2×commentCount) + 0.7 × recencyFactor`, where the
recency factor is monotonically increasing in the creation timestamp; every
earlier item of the returned page has a unified score at least that of every
later item. -/
theorem personalized_page_sorted_by_unifiedScore (s : Store) (viewerId : Nat)
    (rawPage rawLimit : Option Int) (r : FeedResponse)
    (h : getPersonalizedFeed s viewerId rawPage rawLimit = some r) :
    r.posts.Pairwise (fun a b => unifiedScore b ≤ unifiedScore a) ∧
      (∀ p q : Post, p.createdAt ≤ q.createdAt → recencyFactor p ≤ recencyFactor q) ∧
      (∀ p : Post, unifiedScore p =
        (3 / 10) * ((p.likes.length : ℚ) + 2 * (p.comments.length : ℚ)) +
          (7 / 10) * recencyFactor p) := by
  obtain ⟨c, hc, hr⟩ := getPersonalizedFeed_eq s viewerId rawPage rawLimit r h
  refine ⟨?_, ?_, ?_⟩
  · have hs : (List.insertionSort unifiedOrd (c.1 ++ c.2)).Pairwise unifiedOrd :=
      List.sorted_insertionSort unifiedOrd (c.1 ++ c.2)
    have := hs.sublist (jsSlice_sublist (List.insertionSort unifiedOrd (c.1 ++ c.2))
      ((parseIntOr 1 rawPage - 1) * parseIntOr 10 rawLimit)
      ((parseIntOr 1 rawPage - 1) * parseIntOr 10 rawLimit + parseIntOr 10 rawLimit))
    rw [hr]
    exact this
  · intro p q hpq
    unfold recencyFactor
    have : (p.createdAt : ℚ) ≤ (q.createdAt : ℚ) := Int.cast_le.mpr hpq
    exact div_le_div_of_nonneg_right this (by norm_num) |>.trans_eq rfl
  · intro p
    unfold unifiedScore
    ring

theorem allCandidates_eq (s : Store) (v : Nat) (limit : Int) (c : List Post × List Post)
    (h : allCandidates s v limit = some c) :
    ∃ user, findUser s v = some user ∧
      c.1 = followingPostsOf s (followingIdsOf s user) (Int.fdiv (7 * limit) 10) ∧
      c.2 = recommendedPostsOf s v (followingIdsOf s user)
        (c.1.map (fun p => p.id)) (limit - c.1.length) := by
  simp only [allCandidates, Option.map_eq_some'] at h
  obtain ⟨user, hu, hc⟩ := h
  refine ⟨user, hu, ?_, ?_⟩
  · rw [← hc]
  · rw [← hc]

theorem mem_followingPostsOf (s : Store) (fids : List Nat) (count : Int) (p : Post)
    (hp : p ∈ followingPostsOf s fids count) :
    p ∈ s.posts ∧ p.author ∈ fids ∧ p.isPublic = true := by
  unfold followingPostsOf mongoLimit at hp
  have hp2 : p ∈ List.insertionSort createdDesc (graphEligible s fids) := by
    by_cases h : count = 0
    · simpa [h] using hp
    · simp only [if_neg h] at hp
      exact List.mem_of_mem_take hp
  have hp3 : p ∈ graphEligible s fids := (List.mem_insertionSort createdDesc).mp hp2
  have := List.mem_filter.mp hp3
  exact ⟨this.1, of_decide_eq_true this.2⟩

theorem mem_coengPostsOf (s : Store) (v : Nat) (fids excl : List Nat) (n : Nat) (p : Post)
    (hp : p ∈ coengPostsOf s v fids excl n) :
    p ∈ s.posts ∧ p.id ∉ excl ∧ p.author ≠ v ∧ p.author ∉ fids ∧ p.isPublic = true ∧
      0 < likedByFollowing s p fids := by
  unfold coengPostsOf at hp
  have hp2 := (List.mem_insertionSort (coengOrd s fids)).mp (List.mem_of_mem_take hp)
  have := List.mem_filter.mp hp2
  exact ⟨this.1, of_decide_eq_true this.2⟩

theorem mem_popularPostsOf (s : Store) (v : Nat) (fids excl : List Nat) (n : Nat) (p : Post)
    (hp : p ∈ popularPostsOf s v fids excl n) :
    p ∈ s.posts ∧ p.id ∉ excl ∧ p.author ≠ v ∧ p.author ∉ fids ∧ p.isPublic = true := by
  unfold popularPostsOf at hp
  have hp2 := (List.mem_insertionSort engOrd).mp (List.mem_of_mem_take hp)
  have := List.mem_filter.mp hp2
  exact ⟨this.1, of_decide_eq_true this.2⟩

theorem mem_recommendedPostsOf (s : Store) (v : Nat) (fids gids : List Nat) (n : Int) (p : Post)
    (hp : p ∈ recommendedPostsOf s v fids gids n) :
    p ∈ s.posts ∧ p.id ∉ gids ∧ p.author ≠ v ∧ p.author ∉ fids ∧ p.isPublic = true := by
  unfold recommendedPostsOf at hp
  by_cases h0 : 0 < n
  · simp only [if_pos h0] at hp
    by_cases h1 : ((coengPostsOf s v fids gids n.toNat).length : Int) < n
    · simp only [if_pos h1, List.mem_append] at hp
      rcases hp with hp | hp
      · have := mem_coengPostsOf s v fids gids n.toNat p hp
        exact ⟨this.1, this.2.1, this.2.2.1, this.2.2.2.1, this.2.2.2.2.1⟩
      · have := mem_popularPostsOf s v fids _ _ p hp
        have hid : p.id ∉ gids := fun hin => this.2.1 (List.mem_append.mpr (Or.inl hin))
        exact ⟨this.1, hid, this.2.2.1, this.2.2.2.1, this.2.2.2.2⟩
    · simp only [if_neg h1] at hp
      have := mem_coengPostsOf s v fids gids n.toNat p hp
      exact ⟨this.1, this.2.1, this.2.2.1, this.2.2.2.1, this.2.2.2.2.1⟩
  · simp [if_neg h0] at hp

theorem nodup_ids_of_sublist (l l2 : List Post) (h : List.Sublist l2 l)
    (hn : (l.map (fun p => p.id)).Nodup) : (l2.map (fun p => p.id)).Nodup :=
  hn.sublist (h.map _)

theorem nodup_ids_insertionSort (r : Post → Post → Prop) [DecidableRel r] (l : List Post)
    (h : (l.map (fun p => p.id)).Nodup) :
    ((List.insertionSort r l).map (fun p => p.id)).Nodup :=
  ((List.perm_insertionSort r l).map _).nodup_iff.mpr h

theorem nodup_ids_filter (s : Store) (q : Post → Bool)
    (hn : (s.posts.map (fun p => p.id)).Nodup) :
    ((s.posts.filter q).map (fun p => p.id)).Nodup :=
  nodup_ids_of_sublist _ _ (List.filter_sublist s.posts) hn

theorem nodup_ids_followingPostsOf (s : Store) (fids : List Nat) (count : Int)
    (hn : (s.posts.map (fun p => p.id)).Nodup) :
    ((followingPostsOf s fids count).map (fun p => p.id)).Nodup := by
  unfold followingPostsOf mongoLimit
  have hs : ((List.insertionSort createdDesc (graphEligible s fids)).map
      (fun p => p.id)).Nodup :=
    nodup_ids_insertionSort createdDesc _ (by unfold graphEligible; exact nodup_ids_filter s _ hn)
  by_cases h : count = 0
  · simpa [h] using hs
  · simp only [if_neg h]
    exact nodup_ids_of_sublist _ _ (List.take_sublist _ _) hs

theorem nodup_ids_coengPostsOf (s : Store) (v : Nat) (fids excl : List Nat) (n : Nat)
    (hn : (s.posts.map (fun p => p.id)).Nodup) :
    ((coengPostsOf s v fids excl n).map (fun p => p.id)).Nodup := by
  unfold coengPostsOf
  exact nodup_ids_of_sublist _ _ (List.take_sublist _ _)
    (nodup_ids_insertionSort _ _ (nodup_ids_filter s _ hn))

theorem nodup_ids_popularPostsOf (s : Store) (v : Nat) (fids excl : List Nat) (n : Nat)
    (hn : (s.posts.map (fun p => p.id)).Nodup) :
    ((popularPostsOf s v fids excl n).map (fun p => p.id)).Nodup := by
  unfold popularPostsOf
  exact nodup_ids_of_sublist _ _ (List.take_sublist _ _)
    (nodup_ids_insertionSort _ _ (nodup_ids_filter s _ hn))

theorem nodup_ids_recommendedPostsOf (s : Store) (v : Nat) (fids gids : List Nat) (n : Int)
    (hn : (s.posts.map (fun p => p.id)).Nodup) :
    ((recommendedPostsOf s v fids gids n).map (fun p => p.id)).Nodup := by
  unfold recommendedPostsOf
  by_cases h0 : 0 < n
  · simp only [if_pos h0]
    by_cases h1 : ((coengPostsOf s v fids gids n.toNat).length : Int) < n
    · simp only [if_pos h1, List.map_append, List.nodup_append]
      refine ⟨nodup_ids_coengPostsOf s v fids gids n.toNat hn,
        nodup_ids_popularPostsOf s v fids _ _ hn, ?_⟩
      intro i hi hi2
      simp only [List.mem_map] at hi hi2
      obtain ⟨p, hp, rfl⟩ := hi
      obtain ⟨q, hq, hqi⟩ := hi2
      have := (mem_popularPostsOf s v fids _ _ q hq).2.1
      exact this (List.mem_append.mpr (Or.inr (by
        rw [hqi]; exact List.mem_map.mpr ⟨p, hp, rfl⟩)))
    · simp only [if_neg h1]
      exact nodup_ids_coengPostsOf s v fids gids n.toNat hn
  · simp [if_neg h0]

/-- The ids of the combined candidate list of one personalized-feed request
are distinct whenever the stored post ids are. -/
theorem nodup_ids_allCandidates (s : Store) (v : Nat) (limit : Int) (c : List Post × List Post)
    (hn : (s.posts.map (fun p => p.id)).Nodup)
    (h : allCandidates s v limit = some c) :
    ((c.1 ++ c.2).map (fun p => p.id)).Nodup := by
  obtain ⟨user, hu, h1, h2⟩ := allCandidates_eq s v limit c h
  rw [List.map_append, List.nodup_append]
  refine ⟨h1 ▸ nodup_ids_followingPostsOf s _ _ hn, h2 ▸ nodup_ids_recommendedPostsOf s _ _ _ _ hn, ?_⟩
  intro i hi hi2
  simp only [List.mem_map] at hi2
  obtain ⟨q, hq, hqi⟩ := hi2
  have := (mem_recommendedPostsOf s v _ _ _ q (h2 ▸ hq)).2.1
  exact this (hqi ▸ hi)

/-! ## C3 — no item appears twice within one page -/

/-- C3: no content-item identity appears more than once within a single
personalized-feed page: each later retrieval stage excludes, by identity,
every item already selected by earlier stages, so with distinct stored ids
the returned page's ids are distinct. -/
theorem personalized_page_nodup_ids (s : Store) (viewerId : Nat)
    (rawPage rawLimit : Option Int) (r : FeedResponse)
    (hn : (s.posts.map (fun p => p.id)).Nodup)
    (h : getPersonalizedFeed s viewerId rawPage rawLimit = some r) :
    (r.posts.map (fun p => p.id)).Nodup := by
  obtain ⟨c, hc, hr⟩ := getPersonalizedFeed_eq s viewerId rawPage rawLimit r h
  have hall := nodup_ids_allCandidates s viewerId _ c hn hc
  have hsorted := nodup_ids_insertionSort unifiedOrd _ hall
  rw [hr]
  exact nodup_ids_of_sublist _ _ (jsSlice_sublist _ _ _) hsorted

theorem getTrendingFeed_eq (s : Store) (now : Int) (rawPage rawLimit : Option Int)
    (r : TrendingResponse) (h : getTrendingFeed s now rawPage rawLimit = some r) :
    0 ≤ (parseIntOr 1 rawPage - 1) * parseIntOr 10 rawLimit ∧ 1 ≤ parseIntOr 10 rawLimit ∧
      r = { posts := ((List.insertionSort trendOrd
              ((s.posts.filter (fun p => p.isPublic)).map (trendItem now))).drop
                ((parseIntOr 1 rawPage - 1) * parseIntOr 10 rawLimit).toNat).take
                (parseIntOr 10 rawLimit).toNat
            currentPage := parseIntOr 1 rawPage
            totalPages := ceilDiv (s.posts.filter (fun p => p.isPublic)).length
              (parseIntOr 10 rawLimit)
            totalPosts := (s.posts.filter (fun p => p.isPublic)).length
            feedType := "trending" } := by
  simp only [getTrendingFeed] at h
  split at h
  · next hcond => exact ⟨hcond.1, hcond.2, (Option.some_inj.mp h).symm⟩
  · exact absurd h (by simp)

theorem getDiscoverFeed_eq (s : Store) (viewerId : Nat) (rawPage rawLimit : Option Int)
    (r : DiscoverResponse) (h : getDiscoverFeed s viewerId rawPage rawLimit = some r) :
    ∃ user, findUser s viewerId = some user ∧
      0 ≤ (parseIntOr 1 rawPage - 1) * parseIntOr 10 rawLimit ∧ 1 ≤ parseIntOr 10 rawLimit ∧
      r = { posts := ((List.insertionSort discoverOrd
              ((discoverCandidates s viewerId user.following).map (discoverItem s))).drop
                ((parseIntOr 1 rawPage - 1) * parseIntOr 10 rawLimit).toNat).take
                (parseIntOr 10 rawLimit).toNat
            currentPage := parseIntOr 1 rawPage
            totalPages := ceilDiv (discoverCandidates s viewerId user.following).length
              (parseIntOr 10 rawLimit)
            totalPosts := (discoverCandidates s viewerId user.following).length
            feedType := "discover" } := by
  simp only [getDiscoverFeed] at h
  split at h
  · exact absurd h (by simp)
  · next user hu =>
    split at h
    · next hcond => exact ⟨user, hu, hcond.1, hcond.2.1, (Option.some_inj.mp h).symm⟩
    · exact absurd h (by simp)

/-! ## C7 — trending scoring and ordering -/

/-- The trending scenario store: post A (id 1, 10 likes, 0 comments) and
post B (id 2, 2 likes, 5 comments), both one day old at the query instant
`trendScenarioNow`. -/
def trendScenarioStore : Store :=
  { posts := [
      { id := 1, author := 2, likes := [3, 4, 5, 6, 7, 8, 9, 10, 11, 12],
        comments := [], createdAt := 0, isPublic := true },
      { id := 2, author := 3, likes := [3, 4], comments := [5, 6, 7, 8, 9],
        createdAt := 0, isPublic := true }]
    users := [] }

def trendScenarioNow : Int := 1000 * 60 * 60 * 24

/-- C7: the trending feed scores every public item by
`finalScore = 0.8 × engagementScore + 0.2 × ageInDays` with
`engagementScore = likeCount + 2 × commentCount`, orders all public items by
that score descending, counts all public items, and paginates via
skip/limit; in particular post B (2 likes, 5 comments) ranks above post A
(10 likes, 0 comments) when both are equally old. -/
theorem trending_scored_and_ordered (s : Store) (now : Int) (rawPage rawLimit : Option Int)
    (r : TrendingResponse) (h : getTrendingFeed s now rawPage rawLimit = some r) :
    r.posts.Pairwise (fun a b => b.finalScore ≤ a.finalScore) ∧
      (∀ it ∈ r.posts, it.finalScore =
        (8 / 10) * ((it.post.likes.length : ℚ) + 2 * (it.post.comments.length : ℚ)) +
          (2 / 10) * (((now : ℚ) - (it.post.createdAt : ℚ)) / (1000 * 60 * 60 * 24))) ∧
      r.totalPosts = (s.posts.filter (fun p => p.isPublic)).length ∧
      (getTrendingFeed trendScenarioStore trendScenarioNow (some 1) (some 10)).map
        (fun t => t.posts.map (fun it => (it.post.id, it.engagementScore))) =
        some [(2, 12), (1, 10)] := by
  obtain ⟨hskip, hlim, hr⟩ := getTrendingFeed_eq s now rawPage rawLimit r h
  refine ⟨?_, ?_, ?_, by with_unfolding_all decide⟩
  · have hs : (List.insertionSort trendOrd
        ((s.posts.filter (fun p => p.isPublic)).map (trendItem now))).Pairwise trendOrd :=
      List.sorted_insertionSort trendOrd _
    rw [hr]
    exact hs.sublist ((List.take_sublist _ _).trans (List.drop_sublist _ _))
  · intro it hit
    rw [hr] at hit
    have h1 : it ∈ (s.posts.filter (fun p => p.isPublic)).map (trendItem now) :=
      (List.mem_insertionSort trendOrd).mp
        (List.mem_of_mem_drop (List.mem_of_mem_take hit))
    obtain ⟨p, _, rfl⟩ := List.mem_map.mp h1
    simp only [trendItem, engagementScore]
    push_cast
    ring
  · rw [hr]

/-! ## C8 — co-engagement retriever contract -/

/-- C8: the co-engagement stage returns at most `n` items, each public, not
authored by the viewer or a followed identity, and liked by at least one
followed identity (never zero-liker filler); its output is ordered by
followed-liker count descending with ties broken by creation timestamp
descending. -/
theorem coeng_retriever_contract (s : Store) (v : Nat) (fids excl : List Nat) (n : Nat) :
    (coengPostsOf s v fids excl n).length ≤ n ∧
      (∀ p ∈ coengPostsOf s v fids excl n,
        p.isPublic = true ∧ p.author ≠ v ∧ p.author ∉ fids ∧
          0 < likedByFollowing s p fids) ∧
      (coengPostsOf s v fids excl n).Pairwise (fun a b =>
        likedByFollowing s b fids < likedByFollowing s a fids ∨
          (likedByFollowing s a fids = likedByFollowing s b fids ∧
            b.createdAt ≤ a.createdAt)) := by
  refine ⟨List.length_take_le n _, ?_, ?_⟩
  · intro p hp
    have := mem_coengPostsOf s v fids excl n p hp
    exact ⟨this.2.2.2.2.1, this.2.2.1, this.2.2.2.1, this.2.2.2.2.2⟩
  · have hs : (List.insertionSort (coengOrd s fids)
        (coengEligible s v fids excl)).Pairwise (coengOrd s fids) :=
      List.sorted_insertionSort (coengOrd s fids) _
    exact hs.sublist (List.take_sublist _ _)

/-! ## C9 — only public items (or the viewer's own) appear in any feed -/

/-- C9: every item of every page produced by the three composers is public
(in particular public or authored by the requesting viewer); a private item
by another author never appears. -/
theorem feeds_only_public_or_own (s : Store) (viewerId : Nat) (now : Int)
    (rawPage rawLimit : Option Int) :
    (∀ r, getPersonalizedFeed s viewerId rawPage rawLimit = some r →
      ∀ p ∈ r.posts, p.isPublic = true ∨ p.author = viewerId) ∧
      (∀ r, getTrendingFeed s now rawPage rawLimit = some r →
        ∀ it ∈ r.posts, it.post.isPublic = true ∨ it.post.author = viewerId) ∧
      (∀ r, getDiscoverFeed s viewerId rawPage rawLimit = some r →
        ∀ it ∈ r.posts, it.post.isPublic = true ∨ it.post.author = viewerId) := by
  refine ⟨?_, ?_, ?_⟩
  · intro r h p hp
    obtain ⟨c, hc, hr⟩ := getPersonalizedFeed_eq s viewerId rawPage rawLimit r h
    rw [hr] at hp
    have h1 : p ∈ c.1 ++ c.2 := (List.mem_insertionSort unifiedOrd).mp
      ((jsSlice_sublist _ _ _).mem hp)
    obtain ⟨user, _, h2, h3⟩ := allCandidates_eq s viewerId _ c hc
    rcases List.mem_append.mp h1 with h4 | h4
    · exact Or.inl (mem_followingPostsOf s _ _ p (h2 ▸ h4)).2.2
    · exact Or.inl (mem_recommendedPostsOf s viewerId _ _ _ p (h3 ▸ h4)).2.2.2.2
  · intro r h it hit
    obtain ⟨hskip, hlim, hr⟩ := getTrendingFeed_eq s now rawPage rawLimit r h
    rw [hr] at hit
    have h1 : it ∈ (s.posts.filter (fun p => p.isPublic)).map (trendItem now) :=
      (List.mem_insertionSort trendOrd).mp
        (List.mem_of_mem_drop (List.mem_of_mem_take hit))
    obtain ⟨p, hp, rfl⟩ := List.mem_map.mp h1
    exact Or.inl (List.mem_filter.mp hp).2
  · intro r h it hit
    obtain ⟨user, hu, hskip, hlim, hr⟩ := getDiscoverFeed_eq s viewerId rawPage rawLimit r h
    rw [hr] at hit
    have h1 : it ∈ (discoverCandidates s viewerId user.following).map (discoverItem s) :=
      (List.mem_insertionSort discoverOrd).mp
        (List.mem_of_mem_drop (List.mem_of_mem_take hit))
    obtain ⟨p, hp, rfl⟩ := List.mem_map.mp h1
    have := List.mem_filter.mp hp
    exact Or.inl (of_decide_eq_true this.2).2.2

/-! ## C4 — pagination: hasMore, cross-page disjointness, last page -/

theorem lt_ceilDiv_iff (t l p : Int) (hl : 0 < l) : p < ceilDiv t l ↔ p * l < t := by
  unfold ceilDiv
  rw [Int.fdiv_eq_ediv _ (le_of_lt hl), lt_neg, Int.ediv_lt_iff_lt_mul hl]
  constructor
  · intro h; nlinarith
  · intro h; nlinarith

theorem jsSlice_eq_nil_iff (l : List α) (a b : Int) (ha : 0 ≤ a) (hab : a < b) :
    (jsSlice l a b = [] ↔ (l.length : Int) ≤ a) := by
  simp only [jsSlice]
  rw [if_neg (show ¬a < 0 by omega), if_neg (show ¬b < 0 by omega)]
  rw [List.drop_eq_nil_iff, List.length_take]
  omega

theorem jsSlice_consecutive_disjoint_ids (l : List Post) (a L : Int) (ha : 0 ≤ a) (hL : 0 ≤ L)
    (hn : (l.map (fun p => p.id)).Nodup) (i : Nat)
    (h1 : i ∈ (jsSlice l a (a + L)).map (fun p => p.id)) :
    i ∉ (jsSlice l (a + L) (a + L + L)).map (fun p => p.id) := by
  intro h2
  set m := (min (a + L) (l.length : Int)).toNat with hm
  have hs1 : List.Sublist (jsSlice l a (a + L)) (l.take m) := by
    simp only [jsSlice]
    rw [if_neg (show ¬a < 0 by omega), if_neg (show ¬a + L < 0 by omega)]
    exact List.drop_sublist _ _
  have hs2 : List.Sublist (jsSlice l (a + L) (a + L + L)) (l.drop m) := by
    simp only [jsSlice]
    rw [if_neg (show ¬a + L < 0 by omega), if_neg (show ¬a + L + L < 0 by omega)]
    rw [List.drop_take]
    exact List.take_sublist _ _
  have hsplit : l.map (fun p => p.id) =
      (l.take m).map (fun p => p.id) ++ (l.drop m).map (fun p => p.id) := by
    rw [← List.map_append, List.take_append_drop]
  rw [hsplit] at hn
  have hdisj := (List.nodup_append.mp hn).2.2
  exact hdisj ((hs1.map _).mem h1) ((hs2.map _).mem h2)

/-- C4: over an unchanged store, the personalized feed's derived has-more
flag is true exactly when the assembled candidate count exceeds
`page × limit`; consecutive pages of the same request parameters are
disjoint by item identity; and at a non-empty page the has-more flag is
false exactly when the next page is empty (i.e. exactly at the last
non-empty page). -/
theorem personalized_pagination_correct (s : Store) (viewerId : Nat) (page limit : Int)
    (hP : 1 ≤ page) (hL : 1 ≤ limit)
    (hn : (s.posts.map (fun p => p.id)).Nodup)
    (r r2 : FeedResponse)
    (h : getPersonalizedFeed s viewerId (some page) (some limit) = some r)
    (h2 : getPersonalizedFeed s viewerId (some (page + 1)) (some limit) = some r2) :
    (r.hasMore = true ↔ page * limit < (r.totalPosts : Int)) ∧
      (∀ i, i ∈ r.posts.map (fun p => p.id) → i ∉ r2.posts.map (fun p => p.id)) ∧
      (r.posts ≠ [] → (r.hasMore = false ↔ r2.posts = [])) := by
  have hpage : parseIntOr 1 (some page) = page := by
    simp only [parseIntOr]; rw [if_neg (show ¬page = 0 by omega)]
  have hpage2 : parseIntOr 1 (some (page + 1)) = page + 1 := by
    simp only [parseIntOr]; rw [if_neg (show ¬page + 1 = 0 by omega)]
  have hlimit : parseIntOr 10 (some limit) = limit := by
    simp only [parseIntOr]; rw [if_neg (show ¬limit = 0 by omega)]
  obtain ⟨c, hc, hr⟩ := getPersonalizedFeed_eq s viewerId (some page) (some limit) r h
  obtain ⟨c2, hc2, hr2⟩ := getPersonalizedFeed_eq s viewerId (some (page + 1)) (some limit) r2 h2
  have hcc : c = c2 := Option.some_inj.mp (hc.symm.trans hc2)
  subst hcc
  rw [hpage, hlimit] at hr
  rw [hpage2, hlimit] at hr2
  set SL := List.insertionSort unifiedOrd (c.1 ++ c.2) with hSL
  have hnodup : (SL.map (fun p => p.id)).Nodup :=
    nodup_ids_insertionSort unifiedOrd _ (nodup_ids_allCandidates s viewerId _ c hn (hlimit ▸ hc))
  refine ⟨?_, ?_, ?_⟩
  · rw [hr]
    show decide (page < ceilDiv (SL.length : Int) limit) = true ↔ _
    rw [decide_eq_true_iff]
    exact lt_ceilDiv_iff _ _ _ (by omega)
  · intro i h1 h2
    rw [hr] at h1
    rw [hr2] at h2
    have ha : (page + 1 - 1) * limit = (page - 1) * limit + limit := by ring
    rw [ha] at h2
    exact jsSlice_consecutive_disjoint_ids SL ((page - 1) * limit) limit
      (by nlinarith) (by omega) hnodup i h1 h2
  · intro hne
    rw [hr, hr2]
    show (decide (page < ceilDiv (SL.length : Int) limit) = false) ↔ _
    rw [decide_eq_false_iff_not, not_lt]
    have ha : (page + 1 - 1) * limit = page * limit := by ring
    rw [ha, jsSlice_eq_nil_iff SL (page * limit) (page * limit + limit)
      (by nlinarith) (by omega)]
    constructor
    · intro hle
      have := (lt_ceilDiv_iff (SL.length : Int) limit page (by omega)).not.mp (not_lt.mpr hle)
      omega
    · intro hle
      rw [← not_lt, lt_ceilDiv_iff _ _ _ (by omega)]
      omega

/-! ## Counting the sourced slots (C2, C10) -/

theorem length_followingPostsOf_le (s : Store) (fids : List Nat) (count : Int)
    (h0 : count ≠ 0) :
    (followingPostsOf s fids count).length ≤ count.natAbs := by
  unfold followingPostsOf mongoLimit
  rw [if_neg h0]
  exact List.length_take_le _ _

theorem length_recommendedPostsOf_le (s : Store) (v : Nat) (fids gids : List Nat) (n : Int) :
    ((recommendedPostsOf s v fids gids n).length : Int) ≤ max n 0 := by
  unfold recommendedPostsOf
  by_cases h0 : 0 < n
  · rw [if_pos h0]
    have hc : (coengPostsOf s v fids gids n.toNat).length ≤ n.toNat :=
      List.length_take_le _ _
    by_cases h1 : ((coengPostsOf s v fids gids n.toNat).length : Int) < n
    · rw [if_pos h1, List.length_append]
      have hp : (popularPostsOf s v fids
          (gids ++ (coengPostsOf s v fids gids n.toNat).map (fun p => p.id))
          (n.toNat - (coengPostsOf s v fids gids n.toNat).length)).length ≤
          n.toNat - (coengPostsOf s v fids gids n.toNat).length :=
        List.length_take_le _ _
      omega
    · rw [if_neg h1]
      omega
  · rw [if_neg h0]
    simp

/-- With a corrected page size of at least 2, the graph-slot count
`Math.floor(limit * 0.7)` is at least 1 and at most `limit - 1`. -/
theorem graphSlots_bounds (limit : Int) (hL : 2 ≤ limit) :
    1 ≤ Int.fdiv (7 * limit) 10 ∧ Int.fdiv (7 * limit) 10 ≤ limit - 1 := by
  rw [Int.fdiv_eq_ediv _ (by omega)]
  constructor
  · rw [Int.le_ediv_iff_mul_le (by omega)]
    omega
  · have : 7 * limit / 10 < limit := by
      rw [Int.ediv_lt_iff_lt_mul (by omega)]
      omega
    omega

/-! ## C2 — mix-ratio slot allocation (corrected: page size at least 2) -/

/-- The C2/C10 counterexample store: viewer 1 follows user 2; user 2 has
one public post (id 1); user 3, not followed, has one public post (id 2)
liked by user 2. -/
def mixStore : Store :=
  { posts := [
      { id := 1, author := 2, likes := [], comments := [], createdAt := 1000000,
        isPublic := true },
      { id := 2, author := 3, likes := [2], comments := [], createdAt := 500000,
        isPublic := true }]
    users := [
      { id := 1, following := [2], followers := [] },
      { id := 2, following := [], followers := [1] },
      { id := 3, following := [], followers := [] }] }

/-- The C10 counterexample store: viewer 1 follows user 2, who has two
public posts (ids 1 and 2). -/
def followStore : Store :=
  { posts := [
      { id := 1, author := 2, likes := [], comments := [], createdAt := 1000000,
        isPublic := true },
      { id := 2, author := 2, likes := [], comments := [], createdAt := 2000000,
        isPublic := true }]
    users := [
      { id := 1, following := [2], followers := [] },
      { id := 2, following := [], followers := [1] }] }

/-- C10 counterexample: at page size 1 the candidate set is not bounded by
the page size — `Math.floor(1 * 0.7) = 0` makes the graph query's cursor
`limit(0)` fetch every followed post — so page 2 is non-empty and
`totalPages = 2`. -/
theorem personalized_page2_cex :
    (getPersonalizedFeed followStore 1 (some 2) (some 1)).map
      (fun r => (r.posts.map (fun p => p.id), r.totalPages)) = some ([1], 2) := by
  with_unfolding_all decide

/-- C10 (amended): for a page size of at least 2, the assembled candidate
set never exceeds `limit` items (`floor(0.7×limit)` graph items plus at most
`limit - g` recommended items), so every page numbered 2 or higher is empty
and `totalPages ≤ 1`. -/
theorem personalized_candidates_bounded (s : Store) (viewerId : Nat) (page limit : Int)
    (hP : 2 ≤ page) (hL : 2 ≤ limit) (r : FeedResponse)
    (h : getPersonalizedFeed s viewerId (some page) (some limit) = some r) :
    (r.totalPosts : Int) ≤ limit ∧ r.posts = [] ∧ r.totalPages ≤ 1 := by
  have hpage : parseIntOr 1 (some page) = page := by
    simp only [parseIntOr]; rw [if_neg (show ¬page = 0 by omega)]
  have hlimit : parseIntOr 10 (some limit) = limit := by
    simp only [parseIntOr]; rw [if_neg (show ¬limit = 0 by omega)]
  obtain ⟨c, hc, hr⟩ := getPersonalizedFeed_eq s viewerId (some page) (some limit) r h
  rw [hpage, hlimit] at hr
  rw [hlimit] at hc
  obtain ⟨user, hu, h1, h2⟩ := allCandidates_eq s viewerId limit c hc
  obtain ⟨hgs1, hgs2⟩ := graphSlots_bounds limit hL
  have hc1 : (c.1.length : Int) ≤ limit - 1 := by
    have := length_followingPostsOf_le s (followingIdsOf s user)
      (Int.fdiv (7 * limit) 10) (by omega)
    rw [← h1] at this
    omega
  have hc2 : (c.2.length : Int) ≤ max (limit - c.1.length) 0 := by
    rw [h2]
    exact length_recommendedPostsOf_le s viewerId _ _ _
  have htot : ((c.1 ++ c.2).length : Int) ≤ limit := by
    rw [List.length_append]
    push_cast
    omega
  have hlen : ((List.insertionSort unifiedOrd (c.1 ++ c.2)).length : Int) ≤ limit := by
    rw [(List.perm_insertionSort unifiedOrd _).length_eq]
    exact htot
  refine ⟨by rw [hr]; exact hlen, ?_, ?_⟩
  · rw [hr]
    rw [jsSlice_eq_nil_iff _ _ _ (by nlinarith) (by omega)]
    nlinarith
  · rw [hr]
    show ceilDiv _ limit ≤ 1
    rw [← not_lt, lt_ceilDiv_iff _ _ _ (by omega)]
    omega

/-- C10 amended witness. -/
theorem personalized_candidates_bounded_witness :
    (getPersonalizedFeed followStore 1 (some 2) (some 2)).elim False
      (fun r => r.posts = [] ∧ r.totalPages ≤ 1) := by
  cases h : getPersonalizedFeed followStore 1 (some 2) (some 2) with
  | none => exact absurd h (by with_unfolding_all decide)
  | some r =>
    have := personalized_candidates_bounded followStore 1 2 2 (by omega) (by omega) r h
    exact ⟨this.2.1, this.2.2⟩

/-! ## C5 — no pagination validation exists (corrected) -/

/-- C5 counterexample: a request with `page = -1 < 1` is not rejected: the
personalized feed performs its retrieval (two candidates are assembled and
counted) and returns a RankedPage with `currentPage = -1`. -/
theorem invalid_pagination_cex :
    (getPersonalizedFeed mixStore 1 (some (-1)) (some 5)).map
      (fun r => (r.currentPage, r.totalPosts, r.feedType)) =
      some (-1, 2, "personalized") := by
  with_unfolding_all decide

/-- C5 (amended): no route validates `page` or `pageSize` and no
`InvalidPagination` failure exists.  A raw value of `0` (or an
absent/non-numeric one) is silently replaced by the defaults 1 and 10 on
every route rather than rejected.  Negative values are passed through: the
personalized route still performs retrieval and returns a RankedPage
whenever the viewer resolves (`Array.slice` clamps the negative offset),
while the trending and discover routes forward the resulting negative
`$skip` (or non-positive `$limit`) to the aggregation pipeline, which
aborts — surfaced as a generic 500 server error (`none` here), not as an
`InvalidPagination` rejection; with a non-negative skip and positive limit
the trending route returns a page for arbitrary raw inputs. -/
theorem no_pagination_validation (s : Store) (viewerId : Nat) (now : Int)
    (rawPage rawLimit : Option Int) (h : (findUser s viewerId).isSome = true) :
    (getPersonalizedFeed s viewerId rawPage rawLimit).isSome = true ∧
      getPersonalizedFeed s viewerId (some 0) rawLimit =
        getPersonalizedFeed s viewerId none rawLimit ∧
      getPersonalizedFeed s viewerId rawPage (some 0) =
        getPersonalizedFeed s viewerId rawPage none ∧
      getTrendingFeed s now (some 0) rawLimit = getTrendingFeed s now none rawLimit ∧
      getTrendingFeed s now rawPage (some 0) = getTrendingFeed s now rawPage none ∧
      getDiscoverFeed s viewerId (some 0) rawLimit =
        getDiscoverFeed s viewerId none rawLimit ∧
      (0 ≤ (parseIntOr 1 rawPage - 1) * parseIntOr 10 rawLimit ∧ 1 ≤ parseIntOr 10 rawLimit →
        (getTrendingFeed s now rawPage rawLimit).isSome = true) ∧
      (¬(0 ≤ (parseIntOr 1 rawPage - 1) * parseIntOr 10 rawLimit ∧
          1 ≤ parseIntOr 10 rawLimit) →
        getTrendingFeed s now rawPage rawLimit = none ∧
          getDiscoverFeed s viewerId rawPage rawLimit = none) := by
  refine ⟨?_, ?_, ?_, ?_, ?_, ?_, ?_, ?_⟩
  · obtain ⟨u, hu⟩ := Option.isSome_iff_exists.mp h
    simp [getPersonalizedFeed, allCandidates, hu]
  · simp [getPersonalizedFeed, parseIntOr]
  · simp [getPersonalizedFeed, parseIntOr]
  · simp [getTrendingFeed, parseIntOr]
  · simp [getTrendingFeed, parseIntOr]
  · simp [getDiscoverFeed, parseIntOr]
  · intro hcond
    simp only [getTrendingFeed]
    rw [if_pos hcond]
    simp
  · intro hcond
    constructor
    · simp only [getTrendingFeed]
      rw [if_neg hcond]
    · simp only [getDiscoverFeed]
      cases hu : findUser s viewerId with
      | none => rfl
      | some u =>
        dsimp only
        rw [if_neg (fun hcon => hcond ⟨hcon.1, hcon.2.1⟩)]

/-- C5 amended witness. -/
theorem no_pagination_validation_witness :
    (findUser mixStore 1).isSome = true ∧
      (getPersonalizedFeed mixStore 1 (some (-7)) (some (-3))).isSome = true ∧
      getTrendingFeed mixStore 0 (some (-1)) (some 5) = none ∧
      getDiscoverFeed mixStore 1 (some (-1)) (some 5) = none := by
  have h : (findUser mixStore 1).isSome = true := by with_unfolding_all decide
  have thm := no_pagination_validation mixStore 1 0 (some (-7)) (some (-3)) h
  have thm2 := no_pagination_validation mixStore 1 0 (some (-1)) (some 5) h
  have hneg := thm2.2.2.2.2.2.2.2 (by decide)
  exact ⟨h, thm.1, hneg.1, hneg.2⟩

/-! ## C6 — determinism across calls (corrected: trending serializes
time-dependent fields) -/

/-- The C6 counterexample store: one public post created at timestamp 0. -/
def trendDetStore : Store :=
  { posts := [
      { id := 1, author := 2, likes := [], comments := [], createdAt := 0,
        isPublic := true }]
    users := [] }

/-- C6 counterexample: two trending calls with identical arguments against
an unchanged store, one day apart, return different responses — the
`recencyBoost` and `finalScore` fields computed from `new Date()` are
serialized with each post. -/
theorem trending_time_dependence_cex :
    getTrendingFeed trendDetStore 86400000 (some 1) (some 10) ≠
      getTrendingFeed trendDetStore 172800000 (some 1) (some 10) := by
  with_unfolding_all decide

/-- The trending comparator on posts, pulled back through the `$addFields`
decoration at instant `now`. -/
def trendPostOrd (now : Int) (a b : Post) : Prop :=
  trendOrd (trendItem now a) (trendItem now b)

instance (now : Int) : DecidableRel (trendPostOrd now) := fun a b =>
  inferInstanceAs (Decidable ((trendItem now b).finalScore ≤ (trendItem now a).finalScore))

theorem orderedInsert_map {α β : Type} (f : α → β) (r : β → β → Prop) [DecidableRel r]
    (q : α → α → Prop) [DecidableRel q] (hq : ∀ a b, q a b ↔ r (f a) (f b)) (a : α) :
    ∀ l : List α, (l.map f).orderedInsert r (f a) = (l.orderedInsert q a).map f
  | [] => rfl
  | b :: l => by
    simp only [List.map_cons, List.orderedInsert]
    by_cases h : q a b
    · rw [if_pos ((hq a b).mp h), if_pos h]
      rfl
    · rw [if_neg (fun hr => h ((hq a b).mpr hr)), if_neg h, List.map_cons,
        orderedInsert_map f r q hq a l]

theorem insertionSort_map {α β : Type} (f : α → β) (r : β → β → Prop) [DecidableRel r]
    (q : α → α → Prop) [DecidableRel q] (hq : ∀ a b, q a b ↔ r (f a) (f b)) :
    ∀ l : List α, (l.map f).insertionSort r = (l.insertionSort q).map f
  | [] => rfl
  | a :: l => by
    simp only [List.map_cons, List.insertionSort]
    rw [insertionSort_map f r q hq l, orderedInsert_map f r q hq a]

theorem orderedInsert_congr {α : Type} (r q : α → α → Prop) [DecidableRel r] [DecidableRel q]
    (h : ∀ a b, r a b ↔ q a b) (a : α) :
    ∀ l : List α, l.orderedInsert r a = l.orderedInsert q a
  | [] => rfl
  | b :: l => by
    simp only [List.orderedInsert]
    by_cases hab : r a b
    · rw [if_pos hab, if_pos ((h a b).mp hab)]
    · rw [if_neg hab, if_neg (fun hr => hab ((h a b).mpr hr)),
        orderedInsert_congr r q h a l]

theorem insertionSort_congr {α : Type} (r q : α → α → Prop) [DecidableRel r] [DecidableRel q]
    (h : ∀ a b, r a b ↔ q a b) :
    ∀ l : List α, l.insertionSort r = l.insertionSort q
  | [] => rfl
  | a :: l => by
    simp only [List.insertionSort]
    rw [insertionSort_congr r q h l, orderedInsert_congr r q h a]

/-- Pairwise comparisons of trending final scores do not depend on the
`new Date()` instant: the `now` term cancels. -/
theorem trendPostOrd_time_indep (n1 n2 : Int) (a b : Post) :
    trendPostOrd n1 a b ↔ trendPostOrd n2 a b := by
  unfold trendPostOrd trendOrd trendItem
  dsimp only
  rw [sub_div, sub_div, sub_div, sub_div]
  constructor <;> intro h <;> linarith

theorem trending_sorted_posts_eq (s : Store) (n1 n2 : Int) :
    (List.insertionSort trendOrd
        ((s.posts.filter (fun p => p.isPublic)).map (trendItem n1))).map (fun it => it.post) =
      (List.insertionSort trendOrd
        ((s.posts.filter (fun p => p.isPublic)).map (trendItem n2))).map (fun it => it.post) := by
  rw [insertionSort_map (trendItem n1) trendOrd (trendPostOrd n1) (fun a b => Iff.rfl),
    insertionSort_map (trendItem n2) trendOrd (trendPostOrd n2) (fun a b => Iff.rfl),
    List.map_map, List.map_map]
  have hpost : ∀ n : Int, ((fun it : TrendingItem => it.post) ∘ trendItem n) = id := by
    intro n; funext p; rfl
  rw [hpost, hpost, List.map_id, List.map_id]
  exact insertionSort_congr (trendPostOrd n1) (trendPostOrd n2)
    (trendPostOrd_time_indep n1 n2) _

/-- C6 (amended): the personalized and discover composers take no
wall-clock input at all in this embedding, so two identical calls against an
unchanged store are trivially bit-identical; for the trending composer the
selected posts, their order, and all pagination metadata are independent of
the call instant — only the serialized `recencyBoost`/`finalScore`
decorations vary with it. -/
theorem trending_deterministic_items (s : Store) (n1 n2 : Int)
    (rawPage rawLimit : Option Int) :
    (getTrendingFeed s n1 rawPage rawLimit).map
        (fun r => (r.posts.map (fun it => it.post), r.currentPage, r.totalPages,
          r.totalPosts, r.feedType)) =
      (getTrendingFeed s n2 rawPage rawLimit).map
        (fun r => (r.posts.map (fun it => it.post), r.currentPage, r.totalPages,
          r.totalPosts, r.feedType)) := by
  simp only [getTrendingFeed]
  by_cases hcond : 0 ≤ (parseIntOr 1 rawPage - 1) * parseIntOr 10 rawLimit ∧
      1 ≤ parseIntOr 10 rawLimit
  · rw [if_pos hcond, if_pos hcond]
    simp only [Option.map_some', Option.some_inj]
    congr 1
    rw [List.map_take, List.map_take, List.map_drop, List.map_drop,
      trending_sorted_posts_eq s n1 n2]
  · rw [if_neg hcond, if_neg hcond]

/-! ## Witnesses for the hypothesised theorems -/

/-- C1 witness. -/
theorem personalized_page_sorted_witness :
    (getPersonalizedFeed mixStore 1 (some 1) (some 10)).elim False (fun r =>
      r.posts.Pairwise (fun a b => unifiedScore b ≤ unifiedScore a)) := by
  cases h : getPersonalizedFeed mixStore 1 (some 1) (some 10) with
  | none => exact absurd h (by with_unfolding_all decide)
  | some r =>
    exact (personalized_page_sorted_by_unifiedScore mixStore 1 (some 1) (some 10) r h).1

/-- C3 witness. -/
theorem personalized_page_nodup_ids_witness :
    (getPersonalizedFeed followStore 1 (some 1) (some 10)).elim False (fun r =>
      (r.posts.map (fun p => p.id)).Nodup) := by
  cases h : getPersonalizedFeed followStore 1 (some 1) (some 10) with
  | none => exact absurd h (by with_unfolding_all decide)
  | some r =>
    exact personalized_page_nodup_ids followStore 1 (some 1) (some 10) r (by decide) h

/-- C4 witness. -/
theorem personalized_pagination_correct_witness :
    (getPersonalizedFeed followStore 1 (some 1) (some 1)).elim False (fun r =>
      (getPersonalizedFeed followStore 1 (some 2) (some 1)).elim False (fun r2 =>
        (r.hasMore = true ↔ 1 * 1 < (r.totalPosts : Int)) ∧
          (r.posts ≠ [] → (r.hasMore = false ↔ r2.posts = [])))) := by
  cases h : getPersonalizedFeed followStore 1 (some 1) (some 1) with
  | none => exact absurd h (by with_unfolding_all decide)
  | some r =>
    cases h2 : getPersonalizedFeed followStore 1 (some 2) (some 1) with
    | none => exact absurd h2 (by with_unfolding_all decide)
    | some r2 =>
      have := personalized_pagination_correct followStore 1 1 1 (by omega) (by omega)
        (by decide) r r2 h h2
      exact ⟨this.1, this.2.2⟩

/-- C7 witness. -/
theorem trending_scored_and_ordered_witness :
    (getTrendingFeed trendScenarioStore trendScenarioNow (some 1) (some 10)).elim False
      (fun r => r.posts.Pairwise (fun a b => b.finalScore ≤ a.finalScore)) := by
  cases h : getTrendingFeed trendScenarioStore trendScenarioNow (some 1) (some 10) with
  | none => exact absurd h (by with_unfolding_all decide)
  | some r =>
    exact (trending_scored_and_ordered trendScenarioStore trendScenarioNow
      (some 1) (some 10) r h).1

/-- The post picked out by the C8 witness. -/
def coengWitnessPost : Post :=
  { id := 2, author := 3, likes := [2], comments := [], createdAt := 500000,
    isPublic := true }

/-- C8 witness. -/
theorem coeng_retriever_contract_witness :
    coengWitnessPost ∈ coengPostsOf mixStore 1 [2] [] 5 ∧
      0 < likedByFollowing mixStore coengWitnessPost [2] := by
  have heq : coengPostsOf mixStore 1 [2] [] 5 = [coengWitnessPost] := by
    with_unfolding_all rfl
  have hmem : coengWitnessPost ∈ coengPostsOf mixStore 1 [2] [] 5 := by
    rw [heq]
    exact List.mem_singleton.mpr rfl
  exact ⟨hmem,
    ((coeng_retriever_contract mixStore 1 [2] [] 5).2.1 coengWitnessPost hmem).2.2.2⟩

/-- C9 witness. -/
theorem feeds_only_public_or_own_witness :
    (getPersonalizedFeed mixStore 1 (some 1) (some 10)).elim False (fun r =>
      ∀ p ∈ r.posts, p.isPublic = true ∨ p.author = 1) := by
  cases h : getPersonalizedFeed mixStore 1 (some 1) (some 10) with
  | none => exact absurd h (by with_unfolding_all decide)
  | some r =>
    exact (feeds_only_public_or_own mixStore 1 0 (some 1) (some 10)).1 r h
